import Mathlib

/-!
Verification of the `google-apps-radius` RADIUS authentication gateway
(`lib/index.js`, `bin/google-apps-radius`).

JavaScript strings are modelled as `List Char`.  The RADIUS wire codec and
the SMTP transport are external collaborators: an inbound datagram is
modelled by its decode outcome (`Except` of an error text or a structured
packet), and the SMTP session by an abstract behaviour
(`SmtpBehavior`).  The per-datagram `message` handler of `createServer`
is embedded as a function producing the ordered trace of its observable
actions (event emissions and response sends); `null`/exceptional
termination (a thrown `TypeError`) is `none`.
-/

namespace GoogleAppsRadius

/-- Characters of the JS regex class `[-a-zA-Z0-9]` (domain labels and the
final label of `emailRegExp`). -/
def labelCharB (c : Char) : Bool :=
  c = '-' || c.isAlphanum

/-- Characters of the JS regex class `[-a-zA-Z0-9.]` (the local part of
`emailRegExp`). -/
def localCharB (c : Char) : Bool :=
  c = '-' || c = '.' || c.isAlphanum

/-- After the first `label '.'` group of `emailRegExp`'s domain part has been
consumed, decides whether some further prefix of `t` completes
`([-a-zA-Z0-9]+\.)*([-0-9a-zA-Z]{2,})`.  Because the label class excludes
`'.'`, each label run is forced maximal, so a fuel-indexed scan is a faithful
decision procedure for the existential (backtracking) match semantics; the
fuel is the length of the list, which bounds the recursion depth. -/
def domGroupsAux : Nat → List Char → Bool
  | 0, _ => false
  | fuel + 1, t =>
    if 2 ≤ (t.takeWhile labelCharB).length then true
    else
      match t.dropWhile labelCharB with
      | '.' :: r => !(t.takeWhile labelCharB).isEmpty && domGroupsAux fuel r
      | _ => false

/-- Whether some prefix of `t` matches `([-a-zA-Z0-9]+\.)+([-0-9a-zA-Z]{2,})`,
the part of `emailRegExp` after the `@`. -/
def domStartB (t : List Char) : Bool :=
  match t.dropWhile labelCharB with
  | '.' :: r => !(t.takeWhile labelCharB).isEmpty && domGroupsAux r.length r
  | _ => false

/-- `username.match(emailRegExp)` truthiness for
`emailRegExp = /[-a-zA-Z0-9.]+@([-a-zA-Z0-9]+\.)+([-0-9a-zA-Z]{2,})/`
(unanchored): true iff some substring is in the regex's language, i.e. iff
some `'@'` has a local-part character immediately before it and a domain-part
match starting immediately after it. -/
def emailMatchB : List Char → Bool
  | [] => false
  | c :: rest =>
    (match rest with
     | '@' :: t => localCharB c && domStartB t
     | _ => false) || emailMatchB rest

/-- JS `String.prototype.split` with a single-character separator:
`"a@b@c".split('@') = ["a","b","c"]`, `"".split('@') = [""]`,
`"a@".split('@') = ["a",""]`. -/
def splitOnChar (sep : Char) : List Char → List (List Char)
  | [] => [[]]
  | c :: cs =>
    if c = sep then [] :: splitOnChar sep cs
    else
      match splitOnChar sep cs with
      | [] => [[c]]
      | g :: gs => (c :: g) :: gs

/-- Whether `sub` is a prefix of `hay` (helper for `indexOfGe0`). -/
def startsWithL : List Char → List Char → Bool
  | _, [] => true
  | [], _ :: _ => false
  | c :: cs, d :: ds => c == d && startsWithL cs ds

/-- JS `hay.indexOf(sub) >= 0`: whether `sub` occurs as a contiguous
substring of `hay` (the empty string occurs in every string). -/
def indexOfGe0 (hay sub : List Char) : Bool :=
  match hay with
  | [] => startsWithL [] sub
  | _ :: hs => startsWithL hay sub || indexOfGe0 hs sub

/-- JS `Array.prototype.join(sep)`. -/
def joinSep (sep : List Char) : List (List Char) → List Char
  | [] => []
  | [x] => x
  | x :: y :: rest => x ++ sep ++ joinSep sep (y :: rest)

/-- A decoded RADIUS packet, as far as the handler inspects it: its code
string and the `User-Name` / `User-Password` attributes (absent attributes
are `undefined` in JS, here `none`). The raw packet is carried opaquely for
response correlation. -/
structure Packet where
  code : List Char
  userName : Option (List Char)
  userPassword : Option (List Char)
deriving DecidableEq

/-- The object passed to the `radius` event: `username`, optionally a
`domain` field, and `status` (the code's `authenticate` success object sets
only `username` and `status`, so `domain` is `none` there). -/
structure RadiusEvt where
  username : List Char
  domain : Option (List Char)
  status : Bool
deriving DecidableEq

/-- Observable actions of the `message` handler, in execution order:
`server.emit('radius-error', {message})`, `server.send` of
`radius.encode_response({packet, code, secret})` to the request's origin,
and `server.emit('radius', obj)`. -/
inductive Action where
  | errEvt (msg : List Char)
  | sendResp (req : Packet) (code : List Char) (secret : List Char)
  | outEvt (evt : RadiusEvt)
deriving DecidableEq

/-- Abstract behaviour of one SMTP session in `authenticate`:
the `'error'` event fires before a successful connect (`connectError`, also
covering timeouts), or `conn.connect` succeeds and `conn.login` calls back
with an error (`loginError`, covering rejected credentials and login-phase
transport errors), or login succeeds (`loginOk`). -/
inductive SmtpBehavior where
  | connectError (err : List Char)
  | loginError (err : List Char)
  | loginOk
deriving DecidableEq

/-- Steps of `authenticate`, in execution order: the `conn.connect` attempt,
the `conn.login` attempt with the supplied credentials, the invocation of
the caller's callback (with an error, or with the success object), and
`conn.quit`. -/
inductive AuthAction where
  | connectAttempt
  | loginAttempt (user : List Char) (pass : Option (List Char))
  | callbackErr (err : List Char)
  | callbackOk (obj : RadiusEvt)
  | quit
deriving DecidableEq

/-- The ordered trace of `authenticate(username, password, options, callback)`
under SMTP behaviour `b`.  On `connectError` the `'error'` listener invokes
`callback(err)` and nothing quits the connection; on the two login outcomes
the login callback first invokes `callback` and then runs `conn.quit()`.
The success object is `{username: username, status: true}` (no `domain`). -/
def authTrace (username : List Char) (password : Option (List Char))
    (b : SmtpBehavior) : List AuthAction :=
  match b with
  | .connectError e => [.connectAttempt, .callbackErr e]
  | .loginError e =>
    [.connectAttempt, .loginAttempt username password, .callbackErr e, .quit]
  | .loginOk =>
    [.connectAttempt, .loginAttempt username password,
     .callbackOk ⟨username, none, true⟩, .quit]

/-- The `(err, obj)` pair that `authenticate`'s callback receives under SMTP
behaviour `b`: `callback(err)` on both error paths, `callback(null, {username,
status: true})` on success. -/
def callbackOf (username : List Char) (b : SmtpBehavior) :
    Except (List Char) RadiusEvt :=
  match b with
  | .connectError e => .error e
  | .loginError e => .error e
  | .loginOk => .ok ⟨username, none, true⟩

/-- `createServer`'s options, as far as the handler reads them: the shared
`secret` and the optional comma-separated `acceptDomains` string. -/
structure ServerOptions where
  secret : List Char
  acceptDomains : Option (List Char)
deriving DecidableEq

/-- `options.acceptDomains ? options.acceptDomains.split(',') : []` —
`undefined` and the empty string are falsy and yield `[]`. -/
def acceptList (o : ServerOptions) : List (List Char) :=
  match o.acceptDomains with
  | none => []
  | some s => if s.isEmpty then [] else splitOnChar ',' s

/-- `acceptDomains.filter(function(d){ return d.indexOf(domain) >= 0; })`. -/
def domainFilter (domain : List Char) (ds : List (List Char)) :
    List (List Char) :=
  ds.filter (fun d => indexOfGe0 d domain)

/-- The handler's domain acceptance decision: the filter above is nonempty,
i.e. `domain` occurs as a substring of at least one allow-list entry. -/
def domainAccepts (domain : List Char) (ds : List (List Char)) : Bool :=
  !((domainFilter domain ds).length == 0)

/-- `username.split('@')[1]` (defined whenever the username contains an `@`,
which the email-shape check guarantees on the path where it is used). -/
def domainOf (username : List Char) : List Char :=
  (splitOnChar '@' username).getD 1 []

/-- Message of the non-Access-Request error event. -/
def notAccessRequestMsg : List Char :=
  "Packet code error: not \"Access-Request\"".data

/-- Message of the malformed-username error event. -/
def notEmailMsg : List Char :=
  "The username was not an email address".data

/-- Message of the domain-mismatch error event. -/
def domainRejectMsg (username : List Char) (ds : List (List Char)) :
    List Char :=
  "Username ".data ++ username ++
    " is not in an accepted domain. The complete list of allowed domains is ".data ++
    joinSep (", ".data) ds

/-- The `message` handler of `createServer`, as the ordered trace of its
observable actions.  `decoded` is the outcome of `radius.decode` on the
datagram (`.error` carries `ex.toString()`); `verifier` gives the SMTP
behaviour `authenticate` encounters for given credentials. `none` models the
handler throwing (the `username.match` call on `undefined` when the
`User-Name` attribute is absent); the `console.log` calls are not observable
actions. -/
def handleMessage (opts : ServerOptions)
    (verifier : List Char → Option (List Char) → SmtpBehavior)
    (decoded : Except (List Char) Packet) : Option (List Action) :=
  match decoded with
  | .error ex => some [.errEvt ex]
  | .ok packet =>
    if packet.code ≠ "Access-Request".data then
      some [.errEvt notAccessRequestMsg]
    else
      match packet.userName with
      | none => none
      | some username =>
        if !emailMatchB username then
          some [.errEvt notEmailMsg,
                .sendResp packet ("Access-Reject".data) opts.secret,
                .outEvt ⟨username, none, false⟩]
        else
          if (domainFilter (domainOf username) (acceptList opts)).length = 0 then
            some [.errEvt (domainRejectMsg username (acceptList opts)),
                  .sendResp packet ("Access-Reject".data) opts.secret,
                  .outEvt ⟨username, none, false⟩]
          else
            match callbackOf username (verifier username packet.userPassword) with
            | .error _ =>
              some [.sendResp packet ("Access-Reject".data) opts.secret,
                    .outEvt ⟨username, none, false⟩]
            | .ok obj =>
              some [.sendResp packet
                      (if obj.status then "Access-Accept".data
                       else "Access-Reject".data) opts.secret,
                    .outEvt obj]

/-- The server's processing of a sequence of inbound datagrams: the handler
closes over only the read-only `options` (and the ambient `authenticate`),
so each datagram is handled independently. -/
def processAll (opts : ServerOptions)
    (verifier : List Char → Option (List Char) → SmtpBehavior)
    (ds : List (Except (List Char) Packet)) : List (Option (List Action)) :=
  ds.map (handleMessage opts verifier)

/-- Whether an action is a `radius-error` emission. -/
def isErrEvt : Action → Bool
  | .errEvt _ => true
  | _ => false

/-- Whether an action is a response send. -/
def isSendResp : Action → Bool
  | .sendResp _ _ _ => true
  | _ => false

/-- Whether an action is a `radius` (outcome) emission. -/
def isOutEvt : Action → Bool
  | .outEvt _ => true
  | _ => false

/-- Scans a handler trace and checks that every outcome emission is strictly
preceded by a response send; `seenSend` records whether a send has already
occurred. -/
def outAfterSendOK (seenSend : Bool) : List Action → Bool
  | [] => true
  | a :: rest =>
    match a with
    | .outEvt _ => seenSend && outAfterSendOK seenSend rest
    | .sendResp _ _ _ => outAfterSendOK true rest
    | .errEvt _ => outAfterSendOK seenSend rest

/-- Whether the first callback invocation in an `authenticate` trace is
preceded by a `quit` (the property "connection closed before the result is
returned"); vacuously true if no callback occurs. -/
def quitBeforeCallbackB : List AuthAction → Bool
  | [] => true
  | a :: rest =>
    match a with
    | .callbackErr _ => false
    | .callbackOk _ => false
    | .quit => true
    | _ => quitBeforeCallbackB rest

/-- Whether an `authenticate` trace contains a callback invocation that is
followed, strictly later, by a `quit`. -/
def quitAfterCallbackB : List AuthAction → Bool
  | [] => false
  | a :: rest =>
    match a with
    | .callbackErr _ => decide (AuthAction.quit ∈ rest)
    | .callbackOk _ => decide (AuthAction.quit ∈ rest)
    | _ => quitAfterCallbackB rest

/-- Modelled from the spec: "Returns true iff at least one entry in
`allowList` is a substring of `domain`" — the spec's reading of the
domain-match step, for comparison with the code's `domainAccepts`. -/
def domainAcceptsSpec (domain : List Char) (ds : List (List Char)) : Prop :=
  ∃ d ∈ ds, ∃ p s, domain = p ++ d ++ s

/-- Modelled from the spec: "the substring of the username after the first
`@` (the entire remainder of the string)". -/
def afterFirstAt (u : List Char) : List Char :=
  (u.dropWhile (fun c => c != '@')).drop 1

theorem startsWithL_iff (sub hay : List Char) :
    startsWithL hay sub = true ↔ ∃ t, hay = sub ++ t := by
  induction sub generalizing hay with
  | nil => simp [startsWithL]
  | cons d ds ih =>
    cases hay with
    | nil => simp [startsWithL]
    | cons c cs =>
      simp only [startsWithL, Bool.and_eq_true, beq_iff_eq, ih, List.cons_append,
        List.cons.injEq]
      constructor
      · rintro ⟨rfl, t, rfl⟩
        exact ⟨t, rfl, rfl⟩
      · rintro ⟨t, rfl, rfl⟩
        exact ⟨rfl, t, rfl⟩

theorem indexOfGe0_iff (hay sub : List Char) :
    indexOfGe0 hay sub = true ↔ ∃ p t, hay = p ++ sub ++ t := by
  induction hay with
  | nil =>
    simp only [indexOfGe0, startsWithL_iff]
    constructor
    · rintro ⟨t, ht⟩
      exact ⟨[], t, ht⟩
    · rintro ⟨p, t, ht⟩
      rcases List.append_eq_nil.mp ht.symm with ⟨h1, h2⟩
      rcases List.append_eq_nil.mp h1 with ⟨h3, h4⟩
      exact ⟨[], by simp [h4]⟩
  | cons c hs ih =>
    simp only [indexOfGe0, Bool.or_eq_true, startsWithL_iff, ih]
    constructor
    · rintro (⟨t, ht⟩ | ⟨p, t, ht⟩)
      · exact ⟨[], t, by simpa using ht⟩
      · exact ⟨c :: p, t, by simp [ht]⟩
    · rintro ⟨p, t, ht⟩
      cases p with
      | nil => exact Or.inl ⟨t, by simpa using ht⟩
      | cons c' p' =>
        rcases List.cons_eq_cons.mp ht with ⟨rfl, h2⟩
        exact Or.inr ⟨p', t, h2⟩

theorem domainAccepts_iff (domain : List Char) (ds : List (List Char)) :
    domainAccepts domain ds = true ↔ ∃ d ∈ ds, ∃ p s, d = p ++ domain ++ s := by
  simp only [domainAccepts, domainFilter, Bool.not_eq_true', beq_eq_false_iff_ne,
    ne_eq, List.length_eq_zero, List.filter_eq_nil_iff, not_forall]
  constructor
  · rintro ⟨d, hd, hpred⟩
    refine ⟨d, hd, ?_⟩
    rw [← indexOfGe0_iff]
    simpa using hpred
  · rintro ⟨d, hd, hsub⟩
    exact ⟨d, hd, by simpa using (indexOfGe0_iff d domain).mpr hsub⟩

theorem splitOnChar_ne_nil (sep : Char) (u : List Char) : splitOnChar sep u ≠ [] := by
  cases u with
  | nil => simp [splitOnChar]
  | cons c cs =>
    by_cases h : c = sep
    · simp [splitOnChar, h]
    · cases hs : splitOnChar sep cs <;> simp [splitOnChar, h, hs]

theorem splitOnChar_head (sep : Char) (u : List Char) :
    (splitOnChar sep u).getD 0 [] = u.takeWhile (fun c => c != sep) := by
  induction u with
  | nil => simp [splitOnChar]
  | cons c cs ih =>
    by_cases h : c = sep
    · subst h
      simp [splitOnChar, List.takeWhile_cons]
    · cases hs : splitOnChar sep cs with
      | nil => exact absurd hs (splitOnChar_ne_nil sep cs)
      | cons g gs =>
        have hg : g = cs.takeWhile (fun c => c != sep) := by
          rw [← ih, hs]
          rfl
        simp [splitOnChar, h, hs, List.takeWhile_cons, hg]

theorem domainOf_eq_between_ats (u : List Char) :
    domainOf u = (afterFirstAt u).takeWhile (fun c => c != '@') := by
  induction u with
  | nil => simp [domainOf, splitOnChar, afterFirstAt]
  | cons c cs ih =>
    by_cases h : c = '@'
    · subst h
      have h0 : domainOf ('@' :: cs) = (splitOnChar '@' cs).getD 0 [] := by
        simp only [domainOf, splitOnChar, if_pos rfl]
        rfl
      have h2 : afterFirstAt ('@' :: cs) = cs := by
        simp [afterFirstAt, List.dropWhile_cons]
      rw [h0, splitOnChar_head, h2]
    · cases hs : splitOnChar '@' cs with
      | nil => exact absurd hs (splitOnChar_ne_nil '@' cs)
      | cons g gs =>
        have h1 : domainOf (c :: cs) = domainOf cs := by
          simp only [domainOf, splitOnChar, if_neg h, hs]
          rfl
        have h2 : afterFirstAt (c :: cs) = afterFirstAt cs := by
          simp [afterFirstAt, List.dropWhile_cons, h]
        rw [h1, h2, ih]

/-- Claim C1 counterexample: with allow-list `["example.com"]` the domain
`"mail.example.com"` is rejected by the code's domain-match step
(`d.indexOf(domain) >= 0` asks whether the *domain* is a substring of the
allow-list *entry*), even though the entry `"example.com"` is a substring of
the domain as the claim's acceptance condition requires. -/
theorem C1_counterexample :
    domainAccepts ("mail.example.com".data) [("example.com".data)] = false ∧
    domainAcceptsSpec ("mail.example.com".data) [("example.com".data)] := by
  constructor
  · decide
  · exact ⟨"example.com".data, by simp, "mail.".data, [], by decide⟩

/-- Claim C1 (amended): for every domain string and every allow-list, the
domain-match step accepts iff the domain is a substring of at least one
allow-list entry; in particular, with allow-list `["example.com"]`, domain
`"mail.example.com"` is rejected. -/
theorem C1_domain_match_amended (domain : List Char) (ds : List (List Char)) :
    domainAccepts domain ds = true ↔ ∃ d ∈ ds, ∃ p s, d = p ++ domain ++ s :=
  domainAccepts_iff domain ds

/-- Claim C6 counterexample: the username `"a@b.cd@e"` passes the (unanchored)
email-shape validation, yet the domain handed to the domain-match step,
`username.split('@')[1] = "b.cd"`, differs from the substring of the username
after the first `@`, which is `"b.cd@e"`. -/
theorem C6_counterexample :
    emailMatchB ("a@b.cd@e".data) = true ∧
    domainOf ("a@b.cd@e".data) = "b.cd".data ∧
    afterFirstAt ("a@b.cd@e".data) = "b.cd@e".data ∧
    domainOf ("a@b.cd@e".data) ≠ afterFirstAt ("a@b.cd@e".data) :=
  ⟨by decide, by decide, by decide, by decide⟩

/-- Claim C6 (amended): for every username that passes email-shape
validation, the domain handed to the domain-match step equals the substring
of the username after the first `@` truncated at the next `@` if one occurs
(the entire remainder exactly when the username contains a single `@`). -/
theorem C6_domain_derivation_amended (u : List Char)
    (_h : emailMatchB u = true) :
    domainOf u = (afterFirstAt u).takeWhile (fun c => c != '@') :=
  domainOf_eq_between_ats u

/-- Witness for claim C6's amended theorem at the concrete username
`"alice@example.com"`. -/
theorem C6_witness :
    emailMatchB ("alice@example.com".data) = true ∧
    domainOf ("alice@example.com".data) =
      ((afterFirstAt ("alice@example.com".data)).takeWhile (fun c => c != '@')) :=
  ⟨by decide, C6_domain_derivation_amended ("alice@example.com".data) (by decide)⟩

/-- Claim C7 counterexample: on the accepted exit path the connection is
quit only *after* the callback has returned the result, and on the
connect/transport-error exit path `conn.quit` is never invoked at all. -/
theorem C7_counterexample :
    quitBeforeCallbackB
        (authTrace ("alice@example.com".data) (some ("pw".data))
          SmtpBehavior.loginOk) = false ∧
    AuthAction.quit ∉
      authTrace ("alice@example.com".data) (some ("pw".data))
        (SmtpBehavior.connectError ("connection timeout".data)) :=
  ⟨by decide, by decide⟩

/-- Claim C7 (amended): on the accepted and authentication-rejected exit
paths of the credential verifier the SMTP connection is closed, but after
(not before) the result is returned to the caller; on the
transport/connection-error exit path the connection is never closed. -/
theorem C7_quit_after_callback_amended (u : List Char) (p : Option (List Char))
    (e : List Char) :
    quitAfterCallbackB (authTrace u p SmtpBehavior.loginOk) = true ∧
    quitAfterCallbackB (authTrace u p (SmtpBehavior.loginError e)) = true ∧
    AuthAction.quit ∉ authTrace u p (SmtpBehavior.connectError e) := by
  refine ⟨?_, ?_, ?_⟩ <;> simp [authTrace, quitAfterCallbackB]

/-- Claim C2: for every inbound datagram that either fails RADIUS decode or
decodes to a packet whose code is not Access-Request, the handler emits
exactly one error event, sends no response, and emits no outcome event. -/
theorem C2_no_response_on_bad_packet (opts : ServerOptions)
    (verifier : List Char → Option (List Char) → SmtpBehavior)
    (decoded : Except (List Char) Packet)
    (h : (∃ e, decoded = .error e) ∨
      (∃ p, decoded = .ok p ∧ p.code ≠ "Access-Request".data)) :
    ∃ tr, handleMessage opts verifier decoded = some tr ∧
      (tr.filter isErrEvt).length = 1 ∧
      (tr.filter isSendResp).length = 0 ∧
      (tr.filter isOutEvt).length = 0 := by
  rcases h with ⟨e, rfl⟩ | ⟨p, rfl, hc⟩
  · exact ⟨[Action.errEvt e], rfl,
      by simp [List.filter, isErrEvt],
      by simp [List.filter, isSendResp],
      by simp [List.filter, isOutEvt]⟩
  · refine ⟨[Action.errEvt notAccessRequestMsg], ?_,
      by simp [List.filter, isErrEvt],
      by simp [List.filter, isSendResp],
      by simp [List.filter, isOutEvt]⟩
    simp [handleMessage, hc]

/-- Witness for claim C2's theorem on a concrete undecodable datagram. -/
theorem C2_witness :
    ∃ tr, handleMessage ⟨("s3cret".data), some ("example.com".data)⟩
        (fun _ _ => SmtpBehavior.loginOk) (.error ("decode failure".data)) = some tr ∧
      (tr.filter isErrEvt).length = 1 ∧
      (tr.filter isSendResp).length = 0 ∧
      (tr.filter isOutEvt).length = 0 :=
  C2_no_response_on_bad_packet ⟨("s3cret".data), some ("example.com".data)⟩
    (fun _ _ => SmtpBehavior.loginOk) (.error ("decode failure".data))
    (Or.inl ⟨("decode failure".data), rfl⟩)

/-- Claim C3: for every request reaching credential verification, an accepted
login yields response code Access-Accept, while a rejected login or a
connect/transport error yields Access-Reject and an outcome event carrying
the original request's username with status false. -/
theorem C3_verifier_outcome_mapping (opts : ServerOptions)
    (verifier : List Char → Option (List Char) → SmtpBehavior)
    (p : Packet) (u : List Char)
    (hcode : p.code = "Access-Request".data)
    (huser : p.userName = some u)
    (hemail : emailMatchB u = true)
    (hdomain : (domainFilter (domainOf u) (acceptList opts)).length ≠ 0) :
    (verifier u p.userPassword = SmtpBehavior.loginOk →
      handleMessage opts verifier (.ok p) =
        some [Action.sendResp p ("Access-Accept".data) opts.secret,
              Action.outEvt ⟨u, none, true⟩]) ∧
    (∀ e, verifier u p.userPassword = SmtpBehavior.loginError e ∨
        verifier u p.userPassword = SmtpBehavior.connectError e →
      handleMessage opts verifier (.ok p) =
        some [Action.sendResp p ("Access-Reject".data) opts.secret,
              Action.outEvt ⟨u, none, false⟩]) := by
  constructor
  · intro hv
    simp [handleMessage, hcode, huser, hemail, hdomain, hv, callbackOf]
  · rintro e (hv | hv) <;>
      simp [handleMessage, hcode, huser, hemail, hdomain, hv, callbackOf]

/-- Witness for claim C3's theorem: a concrete request whose credentials the
upstream rejects is answered with Access-Reject and a status-false outcome
for the request's own username. -/
theorem C3_witness :
    handleMessage ⟨("s3cret".data), some ("example.com".data)⟩
        (fun _ _ => SmtpBehavior.loginError ("535 authentication rejected".data))
        (.ok ⟨"Access-Request".data, some ("alice@example.com".data),
              some ("pw".data)⟩) =
      some [Action.sendResp
              ⟨"Access-Request".data, some ("alice@example.com".data),
               some ("pw".data)⟩ ("Access-Reject".data) ("s3cret".data),
            Action.outEvt ⟨("alice@example.com".data), none, false⟩] :=
  (C3_verifier_outcome_mapping ⟨("s3cret".data), some ("example.com".data)⟩
      (fun _ _ => SmtpBehavior.loginError ("535 authentication rejected".data))
      ⟨"Access-Request".data, some ("alice@example.com".data), some ("pw".data)⟩
      ("alice@example.com".data) rfl rfl (by decide) (by decide)).2
    ("535 authentication rejected".data) (Or.inl rfl)

/-- Claim C4 (code-bug evaluation): on a concrete accepted request the
emitted outcome object is `{username, status: true}` with *no* `domain`
field (modelled as `none`), although the code's own doc comments for
`authenticate` and the `radius` event promise a `domain` field. -/
theorem C4_accept_outcome_missing_domain :
    handleMessage ⟨("s3cret".data), some ("example.com".data)⟩
        (fun _ _ => SmtpBehavior.loginOk)
        (.ok ⟨"Access-Request".data, some ("alice@example.com".data),
              some ("pw".data)⟩) =
      some [Action.sendResp
              ⟨"Access-Request".data, some ("alice@example.com".data),
               some ("pw".data)⟩ ("Access-Accept".data) ("s3cret".data),
            Action.outEvt ⟨("alice@example.com".data), none, true⟩] := by
  decide

/-- Claim C5: a decoded Access-Request whose username is not email-shaped
produces exactly the trace: error event, Access-Reject correlated to the
request and signed with the shared secret, then an outcome event with the
username and status false — for *every* allow-list and *every* verifier, so
neither the domain-match step nor the credential verifier is consulted. -/
theorem C5_email_shape_reject (opts : ServerOptions)
    (verifier : List Char → Option (List Char) → SmtpBehavior)
    (p : Packet) (u : List Char)
    (hcode : p.code = "Access-Request".data)
    (huser : p.userName = some u)
    (hemail : emailMatchB u = false) :
    handleMessage opts verifier (.ok p) =
      some [Action.errEvt notEmailMsg,
            Action.sendResp p ("Access-Reject".data) opts.secret,
            Action.outEvt ⟨u, none, false⟩] := by
  simp [handleMessage, hcode, huser, hemail]

/-- Witness for claim C5's theorem at the concrete username `"bob"`. -/
theorem C5_witness :
    handleMessage ⟨("s3cret".data), some ("example.com".data)⟩
        (fun _ _ => SmtpBehavior.loginOk)
        (.ok ⟨"Access-Request".data, some ("bob".data), some ("pw".data)⟩) =
      some [Action.errEvt notEmailMsg,
            Action.sendResp ⟨"Access-Request".data, some ("bob".data),
              some ("pw".data)⟩ ("Access-Reject".data) ("s3cret".data),
            Action.outEvt ⟨("bob".data), none, false⟩] :=
  C5_email_shape_reject ⟨("s3cret".data), some ("example.com".data)⟩
    (fun _ _ => SmtpBehavior.loginOk)
    ⟨"Access-Request".data, some ("bob".data), some ("pw".data)⟩
    ("bob".data) rfl rfl (by decide)

/-- Claim C8: on every path on which the handler terminates normally, each
outcome emission in the trace is strictly preceded by a response send (the
emission happens in the send-completion callback), so the outcome event is
never emitted before the send. -/
theorem C8_outcome_after_send (opts : ServerOptions)
    (verifier : List Char → Option (List Char) → SmtpBehavior)
    (decoded : Except (List Char) Packet) (tr : List Action)
    (h : handleMessage opts verifier decoded = some tr) :
    outAfterSendOK false tr = true := by
  rcases decoded with e | p
  · simp only [handleMessage] at h
    injection h with h
    subst h
    rfl
  · simp only [handleMessage] at h
    split at h
    · injection h with h
      subst h
      rfl
    · split at h
      · exact absurd h (by simp)
      · split at h
        · injection h with h
          subst h
          rfl
        · split at h
          · injection h with h
            subst h
            rfl
          · split at h
            · injection h with h
              subst h
              rfl
            · injection h with h
              subst h
              rfl

/-- Witness for claim C8's theorem on a concrete decode-failure trace. -/
theorem C8_witness :
    outAfterSendOK false [Action.errEvt ("decode failure".data)] = true :=
  C8_outcome_after_send ⟨("s3cret".data), none⟩ (fun _ _ => SmtpBehavior.loginOk)
    (.error ("decode failure".data)) [Action.errEvt ("decode failure".data)] rfl

/-- Claim C9: processing is deterministic and history-free — after any
history of earlier datagrams, the outcome of the latest datagram is the
value of the pure per-datagram handler on that datagram alone, for a fixed
configuration and fixed verifier behaviour (the handler consults and writes
no cross-datagram state). -/
theorem C9_history_free (opts : ServerOptions)
    (verifier : List Char → Option (List Char) → SmtpBehavior)
    (hist : List (Except (List Char) Packet)) (d : Except (List Char) Packet) :
    (processAll opts verifier (hist ++ [d])).getLast? =
      some (handleMessage opts verifier d) := by
  simp [processAll, List.getLast?_concat]

/-- Claim C10: on a decoded Access-Request with no `User-Name` attribute the
handler throws (`username.match` on `undefined`) — no event, no response —
modelled as `none`; with a `User-Name` string present the handler always
terminates normally with a trace. -/
theorem C10_missing_username_throws (opts : ServerOptions)
    (verifier : List Char → Option (List Char) → SmtpBehavior)
    (p : Packet) (hcode : p.code = "Access-Request".data) :
    (p.userName = none → handleMessage opts verifier (.ok p) = none) ∧
    (∀ u, p.userName = some u → handleMessage opts verifier (.ok p) ≠ none) := by
  constructor
  · intro hu
    simp [handleMessage, hcode, hu]
  · intro u hu
    simp only [handleMessage, hcode, hu]
    split
    · simp
    · split
      · simp
      · split
        · simp
        · split <;> simp

/-- Witness for claim C10's theorem: a concrete Access-Request carrying no
`User-Name` attribute makes the handler throw. -/
theorem C10_witness :
    handleMessage ⟨("s3cret".data), some ("example.com".data)⟩
        (fun _ _ => SmtpBehavior.loginOk)
        (.ok ⟨"Access-Request".data, none, none⟩) = none :=
  (C10_missing_username_throws ⟨("s3cret".data), some ("example.com".data)⟩
      (fun _ _ => SmtpBehavior.loginOk)
      ⟨"Access-Request".data, none, none⟩ rfl).1 rfl

end GoogleAppsRadius
